import Mathlib

/-
Verification of `process_input` from src/src/main.rs (goatpaver).

The program reads a JSON structure of headings → XPath expression lists and
urls → {per-heading expected targets, raw HTML content}, and classifies every
(expression, url) pair as successful (extracted text equals the expected
target) or unsuccessful.

The embedding below translates `process_input` and the per-pair task closure
(main.rs lines 36-155) into Lean.  Calls into the external `skyscraper` crate
(XPath compilation, HTML parsing, item-tree construction, query application,
text extraction) are abstracted as a record of functions `Env`; every theorem
quantifies over them.  Each task additionally records how many times it
invoked XPath compilation, HTML parsing and query evaluation, with the
counters incremented exactly at the corresponding call sites of the source.
-/

namespace Goatpaver

/-- Interface to the external skyscraper crate as used by `process_input`:
`parseXpath` is `xpath::parse` (main.rs:61), `parseHtml` is
`skyscraper::html::parse` (main.rs:80), `toItemTree` is
`XpathItemTree::from` (main.rs:84), `applyXpath` is `Xpath::apply`
(main.rs:87), and `itemText` is the
`extract_as_node().extract_as_tree_node().text(..)` chain (main.rs:102-105),
whose `Option` result the source defaults to the empty string. -/
structure Env (Xp Doc Tree Item : Type) where
  parseXpath : String → Except String Xp
  parseHtml : String → Except String Doc
  toItemTree : Doc → Tree
  applyXpath : Xp → Tree → Except String (List Item)
  itemText : Item → Tree → Option String

/-- `UrlData` (main.rs:21-26): per-url expected targets keyed by heading,
plus the raw markup.  The Rust `HashMap` is modelled as an association list
in iteration order. -/
structure UrlData where
  targets : List (String × String)
  content : String
deriving DecidableEq

/-- `InputJson` (main.rs:15-19): headings → expression lists, and
urls → `UrlData`.  Both `HashMap`s are modelled as association lists whose
order is the map's (unspecified) iteration order. -/
structure InputJson where
  xpaths : List (String × List String)
  urls : List (String × UrlData)
deriving DecidableEq

/-- `XpathResult` (main.rs:30-34): the per-expression output entry. -/
structure XpathResult where
  successful : List String
  unsuccessful : List String
deriving DecidableEq

/-- The `Result<bool, String>` produced by one task closure (main.rs:59). -/
inductive TaskOutcome
  | ok (b : Bool)
  | err (e : String)
deriving DecidableEq

/-- Outcome of one task together with how many times the task invoked
XPath compilation (main.rs:61), HTML parsing (main.rs:80) and query
evaluation (main.rs:87). -/
structure TaskTrace where
  result : TaskOutcome
  xpathCompiles : Nat
  htmlParses : Nat
  evalCalls : Nat
deriving DecidableEq

/-- `HashMap::get` on the association-list model. -/
def lookupStr {β : Type} : List (String × β) → String → Option β
  | [], _ => none
  | (k, v) :: rest, key => if k = key then some v else lookupStr rest key

/-- The task closure spawned for one (heading, expression, url) triple
(main.rs:59-121), in source order: compile the XPath, look up the url's
data, short-circuit to `Ok(false)` when no target is registered for the
heading, parse the HTML, build the item tree, apply the query, extract the
first item's text (empty string for an empty item set), and compare it to
the expected target with string equality. -/
def runTask {Xp Doc Tree Item : Type} (env : Env Xp Doc Tree Item)
    (input : InputJson) (heading xpathStr urlString : String) : TaskTrace :=
  match env.parseXpath xpathStr with
  | .error e => ⟨.err ("XPath parsing failed: " ++ e), 1, 0, 0⟩
  | .ok xpath =>
    match lookupStr input.urls urlString with
    | none => ⟨.err "Internal error: URL data not found", 1, 0, 0⟩
    | some urlData =>
      match lookupStr urlData.targets heading with
      | none => ⟨.ok false, 1, 0, 0⟩
      | some expectedTarget =>
        match env.parseHtml urlData.content with
        | .error e => ⟨.err ("HTML parsing failed: " ++ e), 1, 1, 0⟩
        | .ok document =>
          let xpathItemTree := env.toItemTree document
          match env.applyXpath xpath xpathItemTree with
          | .error e => ⟨.err ("XPath evaluation failed: " ++ e), 1, 1, 1⟩
          | .ok itemSet =>
            let actualValue : String :=
              match itemSet with
              | [] => ""
              | item :: _ => (env.itemText item xpathItemTree).getD ""
            ⟨.ok (actualValue == expectedTarget), 1, 1, 1⟩

/-- The match of the result-collection loop (main.rs:132-142): `Ok(true)`
goes to `successful`, `Ok(false)` and `Err(_)` go to `unsuccessful`. -/
def isMatchOutcome : TaskOutcome → Bool
  | .ok true => true
  | _ => false

/-- Task outcomes of one (heading, expression) round: one task per url key
(main.rs:50-126), each returning `(url, result)` (main.rs:123). -/
def roundOutcomes {Xp Doc Tree Item : Type} (env : Env Xp Doc Tree Item)
    (input : InputJson) (heading xpathStr : String) : List (String × TaskOutcome) :=
  input.urls.map (fun p => (p.1, (runTask env input heading xpathStr p.1).result))

/-- One (heading, expression) round (main.rs:45-143): partition the joined
task outcomes into `successful` and `unsuccessful` url lists. -/
def processRound {Xp Doc Tree Item : Type} (env : Env Xp Doc Tree Item)
    (input : InputJson) (heading xpathStr : String) : XpathResult :=
  let outcomes := roundOutcomes env input heading xpathStr
  { successful := (outcomes.filter (fun p => isMatchOutcome p.2)).map Prod.fst
    unsuccessful := (outcomes.filter (fun p => !isMatchOutcome p.2)).map Prod.fst }

/-- `output_results.entry(key).or_insert_with(..)` (main.rs:145-150): the
entry is inserted only when the key is absent; an existing entry is kept. -/
def insertResult (acc : List (String × XpathResult)) (key : String)
    (r : XpathResult) : List (String × XpathResult) :=
  match lookupStr acc key with
  | some _ => acc
  | none => acc ++ [(key, r)]

/-- Inner loop over one heading's expression list (main.rs:44-151): run the
round for each expression and insert its result if the expression string is
not already present. -/
def processHeading {Xp Doc Tree Item : Type} (env : Env Xp Doc Tree Item)
    (input : InputJson) (heading : String) (xpathList : List String)
    (acc : List (String × XpathResult)) : List (String × XpathResult) :=
  xpathList.foldl
    (fun a xpathStr => insertResult a xpathStr (processRound env input heading xpathStr)) acc

/-- The accumulated `output_results` map after iterating all headings in
iteration order (main.rs:40-152). -/
def outputMap {Xp Doc Tree Item : Type} (env : Env Xp Doc Tree Item)
    (input : InputJson) : List (String × XpathResult) :=
  input.xpaths.foldl (fun a p => processHeading env input p.1 p.2 a) []

/-- `process_input` (main.rs:36-155): builds the output map and returns it
wrapped in `Ok` (main.rs:154); no `Err` return exists in the body. -/
def process_input {Xp Doc Tree Item : Type} (env : Env Xp Doc Tree Item)
    (input : InputJson) : Except String (List (String × XpathResult)) :=
  .ok (outputMap env input)

/-- A trivial concrete instantiation of the external interface, used to
evaluate the embedding on concrete inputs: every XPath compiles, every
document parses, and every query returns the empty item set. -/
def unitEnv : Env PUnit PUnit PUnit PUnit where
  parseXpath := fun _ => .ok PUnit.unit
  parseHtml := fun _ => .ok PUnit.unit
  toItemTree := fun _ => PUnit.unit
  applyXpath := fun _ _ => .ok []
  itemText := fun _ _ => none

/-- Like `unitEnv` but XPath compilation always fails. -/
def failEnv : Env PUnit PUnit PUnit PUnit :=
  { unitEnv with parseXpath := fun _ => .error "bad" }

/-- Total number of `skyscraper::html::parse` invocations on url `u`'s
content during one run: one run of `process_input` executes the task body
once for every heading, every expression occurrence under that heading, and
every url (main.rs:43-126), before any duplicate-key insertion decision. -/
def totalHtmlParsesFor {Xp Doc Tree Item : Type} (env : Env Xp Doc Tree Item)
    (input : InputJson) (u : String) : Nat :=
  (input.xpaths.map (fun p =>
    (p.2.map (fun x => (runTask env input p.1 x u).htmlParses)).sum)).sum

/-- Total number of `xpath::parse` invocations on expression string `x`
during one run, summed over every heading, every occurrence of `x` in that
heading's list, and every url. -/
def totalXpathCompilesFor {Xp Doc Tree Item : Type} (env : Env Xp Doc Tree Item)
    (input : InputJson) (x : String) : Nat :=
  (input.xpaths.map (fun p =>
    (p.2.map (fun e =>
      if e = x then
        (input.urls.map (fun q => (runTask env input p.1 e q.1).xpathCompiles)).sum
      else 0)).sum)).sum

/-- The round result retained for expression `x`: the one computed under the
first heading, in iteration order, whose expression list contains `x`. -/
def firstRoundFor {Xp Doc Tree Item : Type} (env : Env Xp Doc Tree Item)
    (input : InputJson) : List (String × List String) → String → Option XpathResult
  | [], _ => none
  | (heading, xl) :: rest, x =>
    if x ∈ xl then some (processRound env input heading x)
    else firstRoundFor env input rest x

/-- Input used to evaluate the embedding: one heading with one expression,
one url whose expected target for that heading is the empty string. -/
def inputC1 : InputJson :=
  { xpaths := [("H", ["e"])]
    urls := [("u1", { targets := [("H", "")], content := "c" })] }

/-- The round result retained for expression "e" on `inputC1`. -/
def rC1 : XpathResult := processRound unitEnv inputC1 "H" "e"

/-- One heading with two expressions and one url with a registered target:
both tasks parse the url's document. -/
def inputC2 : InputJson :=
  { xpaths := [("H", ["e1", "e2"])]
    urls := [("u1", { targets := [("H", "t")], content := "c" })] }

/-- One heading with one expression and two urls with no registered
targets: both tasks compile the expression. -/
def inputC3 : InputJson :=
  { xpaths := [("H", ["e"])]
    urls := [("u1", { targets := [], content := "c" }),
             ("u2", { targets := [], content := "c" })] }

/-- The expression "e" under headings H1 then H2, with different expected
targets for url D under the two headings. -/
def inputC4A : InputJson :=
  { xpaths := [("H1", ["e"]), ("H2", ["e"])]
    urls := [("D", { targets := [("H1", ""), ("H2", "x")], content := "c" })] }

/-- The same heading map content as `inputC4A` in the opposite iteration
order. -/
def inputC4B : InputJson :=
  { xpaths := [("H2", ["e"]), ("H1", ["e"])]
    urls := [("D", { targets := [("H1", ""), ("H2", "x")], content := "c" })] }

lemma lookupStr_mem_keys {β : Type} {l : List (String × β)} {u : String} {v : β}
    (h : lookupStr l u = some v) : u ∈ l.map Prod.fst := by
  induction l with
  | nil => simp [lookupStr] at h
  | cons p rest ih =>
    obtain ⟨k, w⟩ := p
    by_cases hk : k = u
    · simp [hk]
    · simp only [lookupStr, if_neg hk] at h
      simp [ih h]

lemma lookupStr_append_some {β : Type} {l1 : List (String × β)} (l2 : List (String × β))
    {x : String} {v : β} (h : lookupStr l1 x = some v) :
    lookupStr (l1 ++ l2) x = some v := by
  induction l1 with
  | nil => simp [lookupStr] at h
  | cons p rest ih =>
    obtain ⟨k, w⟩ := p
    by_cases hk : k = x
    · simp only [lookupStr, if_pos hk] at h ⊢
      exact h
    · simp only [List.cons_append, lookupStr, if_neg hk] at h ⊢
      exact ih h

lemma lookupStr_append_none {β : Type} {l1 : List (String × β)} (l2 : List (String × β))
    {x : String} (h : lookupStr l1 x = none) :
    lookupStr (l1 ++ l2) x = lookupStr l2 x := by
  induction l1 with
  | nil => rfl
  | cons p rest ih =>
    obtain ⟨k, w⟩ := p
    by_cases hk : k = x
    · simp [lookupStr, if_pos hk] at h
    · simp only [lookupStr, if_neg hk] at h
      simp only [List.cons_append, lookupStr, if_neg hk]
      exact ih h

lemma lookupStr_insertResult (acc : List (String × XpathResult)) (k : String)
    (v : XpathResult) (x : String) :
    lookupStr (insertResult acc k v) x =
      match lookupStr acc x with
      | some r => some r
      | none => if k = x then some v else none := by
  unfold insertResult
  cases hk : lookupStr acc k with
  | some w =>
    cases hx : lookupStr acc x with
    | some r => rfl
    | none =>
      by_cases hkx : k = x
      · subst hkx
        rw [hk] at hx
        exact absurd hx (by simp)
      · simp [if_neg hkx, hx]
  | none =>
    cases hx : lookupStr acc x with
    | some r => exact lookupStr_append_some _ hx
    | none =>
      rw [lookupStr_append_none _ hx]
      simp [lookupStr]

lemma lookupStr_processHeading {Xp Doc Tree Item : Type} (env : Env Xp Doc Tree Item)
    (input : InputJson) (heading : String) :
    ∀ (xl : List String) (acc : List (String × XpathResult)) (x : String),
    lookupStr (processHeading env input heading xl acc) x =
      match lookupStr acc x with
      | some r => some r
      | none =>
          if x ∈ xl then some (processRound env input heading x) else none := by
  intro xl
  induction xl with
  | nil =>
    intro acc x
    cases hx : lookupStr acc x <;> simp [processHeading, hx]
  | cons e rest ih =>
    intro acc x
    show lookupStr (processHeading env input heading rest
        (insertResult acc e (processRound env input heading e))) x = _
    rw [ih]
    rw [lookupStr_insertResult]
    cases hx : lookupStr acc x with
    | some r => rfl
    | none =>
      by_cases hex : e = x
      · subst hex
        simp
      · simp only [if_neg hex]
        by_cases hmem : x ∈ rest
        · simp [hmem]
        · have : x ∉ e :: rest := by
            simp [hmem]
            exact fun hc => hex hc.symm
          simp [hmem, this]

lemma lookupStr_outputFold {Xp Doc Tree Item : Type} (env : Env Xp Doc Tree Item)
    (input : InputJson) :
    ∀ (l : List (String × List String)) (acc : List (String × XpathResult)) (x : String),
    lookupStr (l.foldl (fun a p => processHeading env input p.1 p.2 a) acc) x =
      match lookupStr acc x with
      | some r => some r
      | none => firstRoundFor env input l x := by
  intro l
  induction l with
  | nil =>
    intro acc x
    cases hx : lookupStr acc x <;> simp [firstRoundFor, hx]
  | cons p rest ih =>
    intro acc x
    obtain ⟨heading, xl⟩ := p
    show lookupStr (rest.foldl _ (processHeading env input heading xl acc)) x = _
    rw [ih, lookupStr_processHeading]
    cases hx : lookupStr acc x with
    | some r => rfl
    | none =>
      by_cases hmem : x ∈ xl
      · simp [firstRoundFor, hmem]
      · simp [firstRoundFor, hmem]

lemma lookupStr_outputMap {Xp Doc Tree Item : Type} (env : Env Xp Doc Tree Item)
    (input : InputJson) (x : String) :
    lookupStr (outputMap env input) x = firstRoundFor env input input.xpaths x := by
  rw [outputMap, lookupStr_outputFold]
  simp [lookupStr]

lemma firstRoundFor_some {Xp Doc Tree Item : Type} {env : Env Xp Doc Tree Item}
    {input : InputJson} {l : List (String × List String)} {x : String} {r : XpathResult}
    (h : firstRoundFor env input l x = some r) :
    ∃ heading xl, (heading, xl) ∈ l ∧ x ∈ xl ∧ r = processRound env input heading x := by
  induction l with
  | nil => simp [firstRoundFor] at h
  | cons p rest ih =>
    obtain ⟨heading, xl⟩ := p
    by_cases hmem : x ∈ xl
    · simp only [firstRoundFor, if_pos hmem] at h
      exact ⟨heading, xl, by simp, hmem, (Option.some_inj.mp h).symm⟩
    · simp only [firstRoundFor, if_neg hmem] at h
      obtain ⟨h', xl', hmem', hx', hr'⟩ := ih h
      exact ⟨h', xl', by simp [hmem'], hx', hr'⟩

lemma mem_round_list {β : Type} (l : List (String × β)) (f : String → TaskOutcome)
    (P : TaskOutcome → Bool) (u : String) :
    u ∈ (((l.map (fun p => (p.1, f p.1))).filter (fun p => P p.2)).map Prod.fst) ↔
      u ∈ l.map Prod.fst ∧ P (f u) = true := by
  induction l with
  | nil => simp
  | cons p rest ih =>
    obtain ⟨k, w⟩ := p
    by_cases hP : P (f k) = true
    · simp only [List.map_cons, List.filter_cons, hP, if_pos, List.map_cons]
      constructor
      · intro hmem
        rcases List.mem_cons.mp hmem with hk | hrest
        · subst hk
          exact ⟨by simp, hP⟩
        · obtain ⟨hm, hp⟩ := ih.mp hrest
          exact ⟨by simp [hm], hp⟩
      · rintro ⟨hm, hp⟩
        rcases List.mem_cons.mp hm with hk | hrest
        · subst hk
          simp
        · exact List.mem_cons.mpr (Or.inr (ih.mpr ⟨hrest, hp⟩))
    · simp only [List.map_cons, List.filter_cons, hP]
      simp only [Bool.false_eq_true, if_false]
      rw [ih]
      constructor
      · rintro ⟨hm, hp⟩
        exact ⟨by simp [hm], hp⟩
      · rintro ⟨hm, hp⟩
        rcases List.mem_cons.mp hm with hk | hrest
        · subst hk
          exact absurd hp hP
        · exact ⟨hrest, hp⟩

lemma mem_successful_iff {Xp Doc Tree Item : Type} (env : Env Xp Doc Tree Item)
    (input : InputJson) (heading x u : String) :
    u ∈ (processRound env input heading x).successful ↔
      u ∈ input.urls.map Prod.fst ∧
        isMatchOutcome (runTask env input heading x u).result = true := by
  unfold processRound roundOutcomes
  exact mem_round_list input.urls (fun s => (runTask env input heading x s).result)
    isMatchOutcome u

lemma mem_unsuccessful_iff {Xp Doc Tree Item : Type} (env : Env Xp Doc Tree Item)
    (input : InputJson) (heading x u : String) :
    u ∈ (processRound env input heading x).unsuccessful ↔
      u ∈ input.urls.map Prod.fst ∧
        isMatchOutcome (runTask env input heading x u).result = false := by
  unfold processRound roundOutcomes
  rw [mem_round_list input.urls (fun s => (runTask env input heading x s).result)
    (fun o => !isMatchOutcome o) u]
  simp [Bool.not_eq_true']

/-- C1: for every expression string x present in the output mapping and
every url u in the run's input document set, u appears in exactly one of the
two sets successful[x] and unsuccessful[x] of x's result entry. -/
theorem c1_url_in_exactly_one_set {Xp Doc Tree Item : Type}
    (env : Env Xp Doc Tree Item) (input : InputJson) (x u : String) (r : XpathResult)
    (hx : lookupStr (outputMap env input) x = some r)
    (hu : u ∈ input.urls.map Prod.fst) :
    (u ∈ r.successful ∧ u ∉ r.unsuccessful) ∨
      (u ∉ r.successful ∧ u ∈ r.unsuccessful) := by
  rw [lookupStr_outputMap] at hx
  obtain ⟨heading, xl, hmem, hxl, hr⟩ := firstRoundFor_some hx
  subst hr
  cases hm : isMatchOutcome (runTask env input heading x u).result with
  | true =>
    left
    refine ⟨(mem_successful_iff env input heading x u).mpr ⟨hu, hm⟩, fun hcon => ?_⟩
    have h2 := ((mem_unsuccessful_iff env input heading x u).mp hcon).2
    rw [hm] at h2
    exact absurd h2 (by decide)
  | false =>
    right
    refine ⟨fun hcon => ?_, (mem_unsuccessful_iff env input heading x u).mpr ⟨hu, hm⟩⟩
    have h2 := ((mem_successful_iff env input heading x u).mp hcon).2
    rw [hm] at h2
    exact absurd h2 (by decide)

/-- Witness for C1 at `inputC1`: url u1 lands in exactly one of the two
sets of expression "e"'s entry. -/
theorem c1_witness :
    ("u1" ∈ rC1.successful ∧ "u1" ∉ rC1.unsuccessful) ∨
      ("u1" ∉ rC1.successful ∧ "u1" ∈ rC1.unsuccessful) :=
  c1_url_in_exactly_one_set unitEnv inputC1 "e" "u1" rC1 (by decide) (by decide)

/-- C3 (amended): every spawned task compiles its expression string exactly
once; compilation happens once per (heading occurrence, url) task, with no
per-run memoization. -/
theorem c3_compile_once_per_task {Xp Doc Tree Item : Type}
    (env : Env Xp Doc Tree Item) (input : InputJson) (heading x u : String) :
    (runTask env input heading x u).xpathCompiles = 1 := by
  unfold runTask
  repeat' split
  all_goals try rfl
  all_goals (dsimp only; repeat' split)
  all_goals rfl

/-- C3 counterexample: with one heading owning expression "e" and two urls,
"e" is compiled twice in one run, refuting at-most-once-per-run. -/
theorem c3_counterexample :
    totalXpathCompilesFor unitEnv inputC3 "e" = 2 ∧
      ¬ totalXpathCompilesFor unitEnv inputC3 "e" ≤ 1 := by decide

/-- C5: when the url's targets mapping has no entry for the heading, the
url is classified unsuccessful for the expression, and the task invokes
neither query evaluation nor HTML parsing (so the document's content is
never inspected). -/
theorem c5_missing_target_short_circuits {Xp Doc Tree Item : Type}
    (env : Env Xp Doc Tree Item) (input : InputJson) (heading x u : String)
    (ud : UrlData) (hu : lookupStr input.urls u = some ud)
    (ht : lookupStr ud.targets heading = none) :
    u ∈ (processRound env input heading x).unsuccessful ∧
      (runTask env input heading x u).evalCalls = 0 ∧
      (runTask env input heading x u).htmlParses = 0 := by
  have hkey := lookupStr_mem_keys hu
  have htrace : isMatchOutcome (runTask env input heading x u).result = false ∧
      (runTask env input heading x u).evalCalls = 0 ∧
      (runTask env input heading x u).htmlParses = 0 := by
    unfold runTask
    cases env.parseXpath x with
    | error e => exact ⟨rfl, rfl, rfl⟩
    | ok xpath => simp [hu, ht, isMatchOutcome]
  exact ⟨(mem_unsuccessful_iff env input heading x u).mpr ⟨hkey, htrace.1⟩,
    htrace.2.1, htrace.2.2⟩

/-- Witness for C5: url u1 of `inputC3` has no target for heading "H". -/
theorem c5_witness :
    "u1" ∈ (processRound unitEnv inputC3 "H" "e").unsuccessful ∧
      (runTask unitEnv inputC3 "H" "e" "u1").evalCalls = 0 ∧
      (runTask unitEnv inputC3 "H" "e" "u1").htmlParses = 0 :=
  c5_missing_target_short_circuits unitEnv inputC3 "H" "e" "u1"
    { targets := [], content := "c" } (by decide) (by decide)

/-- C6: a task whose body returns an internal error puts its url in the
expression's unsuccessful set and nowhere else; `process_input` still
returns `Ok` of the full mapping; and a task's trace depends on the input
only through its own url's data, so one pair's failure cannot change any
other pair's outcome. -/
theorem c6_internal_errors_become_nomatch {Xp Doc Tree Item : Type}
    (env : Env Xp Doc Tree Item) (input : InputJson) (heading x u e : String)
    (he : (runTask env input heading x u).result = .err e)
    (hu : u ∈ input.urls.map Prod.fst) :
    (u ∈ (processRound env input heading x).unsuccessful ∧
        u ∉ (processRound env input heading x).successful) ∧
      process_input env input = Except.ok (outputMap env input) ∧
      ∀ input' : InputJson, lookupStr input'.urls u = lookupStr input.urls u →
        runTask env input' heading x u = runTask env input heading x u := by
  have hm : isMatchOutcome (runTask env input heading x u).result = false := by
    rw [he]; rfl
  refine ⟨⟨(mem_unsuccessful_iff env input heading x u).mpr ⟨hu, hm⟩, fun hcon => ?_⟩,
    rfl, fun input' hl => ?_⟩
  · have h2 := ((mem_successful_iff env input heading x u).mp hcon).2
    rw [h2] at hm
    exact absurd hm (by decide)
  · unfold runTask
    simp only [hl]

/-- Witness for C6: under `failEnv` the task body fails with an XPath
compile error for url u1 of `inputC3`. -/
theorem c6_witness :
    ("u1" ∈ (processRound failEnv inputC3 "H" "e").unsuccessful ∧
        "u1" ∉ (processRound failEnv inputC3 "H" "e").successful) ∧
      process_input failEnv inputC3 = Except.ok (outputMap failEnv inputC3) ∧
      ∀ input' : InputJson, lookupStr input'.urls "u1" = lookupStr inputC3.urls "u1" →
        runTask failEnv input' "H" "e" "u1" = runTask failEnv inputC3 "H" "e" "u1" :=
  c6_internal_errors_become_nomatch failEnv inputC3 "H" "e" "u1"
    "XPath parsing failed: bad" (by decide) (by decide)

/-- C2 (amended): each task parses its url's raw markup exactly once when
the expression compiles and a target is registered for the (heading, url)
pair; parsing happens per (heading, expression, url) task, with no per-url
memoization. -/
theorem c2_parse_once_per_task {Xp Doc Tree Item : Type}
    (env : Env Xp Doc Tree Item) (input : InputJson) (heading x u : String)
    (ud : UrlData) (xp : Xp) (t : String)
    (hc : env.parseXpath x = Except.ok xp)
    (hu : lookupStr input.urls u = some ud)
    (ht : lookupStr ud.targets heading = some t) :
    (runTask env input heading x u).htmlParses = 1 := by
  unfold runTask
  rw [hc]
  simp only [hu, ht]
  cases env.parseHtml ud.content with
  | error e => rfl
  | ok document =>
    dsimp only
    cases env.applyXpath xp (env.toItemTree document) with
    | error e => rfl
    | ok itemSet => rfl

/-- Witness for C2's amended statement at `inputC2`. -/
theorem c2_witness : (runTask unitEnv inputC2 "H" "e1" "u1").htmlParses = 1 :=
  c2_parse_once_per_task unitEnv inputC2 "H" "e1" "u1"
    { targets := [("H", "t")], content := "c" } PUnit.unit "t" rfl (by decide) (by decide)

/-- C2 counterexample: with two expressions under one heading and one url
with a registered target, the url's document is parsed twice in one run,
refuting at-most-one-parse-per-url-per-run. -/
theorem c2_counterexample :
    totalHtmlParsesFor unitEnv inputC2 "u1" = 2 ∧
      ¬ totalHtmlParsesFor unitEnv inputC2 "u1" ≤ 1 := by decide

/-- C4 (amended): the result entry retained for an expression string is the
round computed under the first heading, in the heading map's iteration
order, whose list contains that expression; rounds finalized later for the
same string are discarded.  Iteration order of the unordered heading map is
not registration order, so which heading wins is not guaranteed. -/
theorem c4_first_in_iteration_order_wins {Xp Doc Tree Item : Type}
    (env : Env Xp Doc Tree Item) (input : InputJson) (x : String) :
    lookupStr (outputMap env input) x = firstRoundFor env input input.xpaths x :=
  lookupStr_outputMap env input x

/-- C4 counterexample: two iteration orders of the same heading map content
(`inputC4A.xpaths` is a permutation of `inputC4B.xpaths`, urls identical)
classify url D oppositely for the duplicated expression "e", refuting
deterministic first-registered-wins. -/
theorem c4_counterexample :
    inputC4A.xpaths.Perm inputC4B.xpaths ∧ inputC4A.urls = inputC4B.urls ∧
      lookupStr (outputMap unitEnv inputC4A) "e" =
        some { successful := ["D"], unsuccessful := [] } ∧
      lookupStr (outputMap unitEnv inputC4B) "e" =
        some { successful := [], unsuccessful := ["D"] } :=
  ⟨List.Perm.swap _ _ _, rfl, by decide, by decide⟩

/-- C8: when evaluation yields an empty item collection the actual value is
the empty string, so a pair whose registered expected target is the empty
string is classified a match and its url lands in the successful set. -/
theorem c8_empty_item_set_matches_empty_target {Xp Doc Tree Item : Type}
    (env : Env Xp Doc Tree Item) (input : InputJson) (heading x u : String)
    (ud : UrlData) (xp : Xp) (doc : Doc)
    (hc : env.parseXpath x = Except.ok xp)
    (hu : lookupStr input.urls u = some ud)
    (ht : lookupStr ud.targets heading = some "")
    (hp : env.parseHtml ud.content = Except.ok doc)
    (ha : env.applyXpath xp (env.toItemTree doc) = Except.ok []) :
    (runTask env input heading x u).result = TaskOutcome.ok true ∧
      u ∈ (processRound env input heading x).successful := by
  have hres : (runTask env input heading x u).result = TaskOutcome.ok true := by
    unfold runTask
    rw [hc]
    simp only [hu, ht, hp, ha]
    rfl
  refine ⟨hres, (mem_successful_iff env input heading x u).mpr
    ⟨lookupStr_mem_keys hu, ?_⟩⟩
  rw [hres]
  rfl

/-- Witness for C8 at `inputC1`: expression "e" yields the empty item set
under `unitEnv` and u1's expected target for heading "H" is "". -/
theorem c8_witness :
    (runTask unitEnv inputC1 "H" "e" "u1").result = TaskOutcome.ok true ∧
      "u1" ∈ (processRound unitEnv inputC1 "H" "e").successful :=
  c8_empty_item_set_matches_empty_target unitEnv inputC1 "H" "e" "u1"
    { targets := [("H", "")], content := "c" } PUnit.unit PUnit.unit
    rfl (by decide) (by decide) rfl rfl

/-- C10: `process_input` always returns the `Ok` variant carrying the
result mapping; the `Err` variant of its return type is never produced. -/
theorem c10_process_input_never_err {Xp Doc Tree Item : Type}
    (env : Env Xp Doc Tree Item) (input : InputJson) :
    ∃ m, process_input env input = Except.ok m :=
  ⟨outputMap env input, rfl⟩

end Goatpaver
